import Mathlib

/-!
Shallow embedding of the MentOS core subsystems (paging / page-fault
handling, devfs, syscall dispatch) that the verified claims are about.
Definitions are translated from the C sources in `mentos/src/mem/paging.c`,
`mentos/src/fs/devfs.c` and `mentos/src/system/syscall.c`.  Constants that
live in headers not present in the sources (flag bits, errno values,
`find_nearest_order_greater`, `dirname`) are modelled from the
specification, as noted on each definition.
-/

/-- Size of one page in bytes (`PAGE_SIZE`, spec section 6). -/
def PAGE_SIZE : Nat := 4096

-- ===========================================================================
-- Page-table entries and memory-map flags (paging.c)
-- ===========================================================================

/-- Modelled from the spec: the `MM_*` flag bits handed to the paging
functions (`MM_PRESENT`, `MM_RW`, `MM_USER`, `MM_GLOBAL`, `MM_COW`,
`MM_UPDADDR` from `mem/paging.h`, which is not among the sources).  The C
code passes them as a bitmask; the embedding keeps one boolean per bit. -/
structure MMFlags where
  present : Bool := false
  rw : Bool := false
  user : Bool := false
  global : Bool := false
  cow : Bool := false
  updaddr : Bool := false
deriving DecidableEq

/-- A page-table entry (`page_table_entry_t`): bit-packed word with the
fields the paging code reads and writes.  `frame` is the page-frame number
(physical address shifted right by 12). -/
structure PageTableEntry where
  present : Bool := false
  rw : Bool := false
  user : Bool := false
  global : Bool := false
  available : Nat := 0
  kernel_cow : Bool := false
  frame : Nat := 0
deriving DecidableEq

/-- Embedding of `__set_pg_table_flags` (paging.c): writes the flag bits of
a page-table entry from an `MM_*` flag mask, leaving the frame unchanged
and setting the spare `available` bits to 1. -/
def set_pg_table_flags (flags : MMFlags) (t : PageTableEntry) : PageTableEntry :=
  { t with
    rw := flags.rw
    present := flags.present
    kernel_cow := flags.cow
    available := 1
    global := flags.global
    user := flags.user }

/-- Side effects on physical memory performed by the paging code: a buddy
allocation of a fresh frame, the `memset 0` of a freshly mapped frame, a
page-to-page copy through transient mappings, and a frame reference-count
decrement.  The embedding records them as an action trace. -/
inductive MemAction where
  | allocPage (frame : Nat)
  | memsetZero (frame : Nat)
  | copyPage (src dst : Nat)
  | decRef (frame : Nat)
deriving DecidableEq

/-- Result of running COW resolution on one page-table entry: the C return
value (0 success, 1 failure), the updated entry, and the memory actions
performed. -/
structure CowOutcome where
  ret : Nat
  entry : PageTableEntry
  actions : List MemAction
deriving DecidableEq

/-- Embedding of `__page_handle_cow` (paging.c).  `freshFrame` stands for
the page-frame number that `_alloc_pages(GFP_HIGHUSER, 0)` would return.
The C function clears the COW bit, and only in the non-present case
allocates a zeroed page and installs it; in every other case (entry
present, or entry not COW) it falls through to `return 1`. -/
def page_handle_cow (freshFrame : Nat) (e : PageTableEntry) : CowOutcome :=
  if e.kernel_cow then
    let e1 := { e with kernel_cow := false }
    if !e1.present then
      { ret := 0
        entry := { e1 with frame := freshFrame, present := true }
        actions := [.allocPage freshFrame, .memsetZero freshFrame] }
    else
      { ret := 1, entry := e1, actions := [] }
  else
    { ret := 1, entry := e, actions := [] }

/-- Claim C1 as stated, at a given entry: the COW bit is cleared; if the
entry was non-present a fresh zeroed frame is installed present; if the
entry was present a new frame is allocated, the old frame is copied into
it, the old frame's refcount is decremented, and the new frame is
installed present and writable. -/
def c1Stated (freshFrame : Nat) (e : PageTableEntry) : Prop :=
  e.kernel_cow = true →
    (page_handle_cow freshFrame e).entry.kernel_cow = false ∧
    (e.present = false →
      (page_handle_cow freshFrame e).entry.present = true ∧
      MemAction.allocPage (page_handle_cow freshFrame e).entry.frame
        ∈ (page_handle_cow freshFrame e).actions ∧
      MemAction.memsetZero (page_handle_cow freshFrame e).entry.frame
        ∈ (page_handle_cow freshFrame e).actions) ∧
    (e.present = true →
      MemAction.allocPage (page_handle_cow freshFrame e).entry.frame
        ∈ (page_handle_cow freshFrame e).actions ∧
      MemAction.copyPage e.frame (page_handle_cow freshFrame e).entry.frame
        ∈ (page_handle_cow freshFrame e).actions ∧
      MemAction.decRef e.frame ∈ (page_handle_cow freshFrame e).actions ∧
      (page_handle_cow freshFrame e).entry.present = true ∧
      (page_handle_cow freshFrame e).entry.rw = true)

/-- A COW page-table entry that is already present (the shared-write-fault
shape from claim C1). -/
def cowPresentEntry : PageTableEntry :=
  { present := true, rw := false, user := true, global := false
    available := 1, kernel_cow := true, frame := 7 }

/-- C1 counterexample: on a present COW entry `__page_handle_cow` performs
no allocation, no copy and no refcount decrement — it clears the COW bit
and returns 1 — so the present half of the claim fails. -/
theorem c1_counterexample : ¬ c1Stated 9 cowPresentEntry := by
  intro h
  have h2 := (h rfl).2.2 rfl
  simp [page_handle_cow, cowPresentEntry] at h2

/-- C1 (amended): on an entry marked COW the handler clears the COW bit;
if the entry was non-present it allocates one fresh zeroed frame, installs
it present, and reports success; if the entry was present it performs no
allocation, no copy and no refcount decrement, leaves frame and present
bit unchanged, and reports failure (return value 1). -/
theorem c1_amended (freshFrame : Nat) (e : PageTableEntry)
    (hcow : e.kernel_cow = true) :
    (page_handle_cow freshFrame e).entry.kernel_cow = false ∧
    (e.present = false →
      page_handle_cow freshFrame e =
        { ret := 0
          entry := { e with kernel_cow := false, present := true, frame := freshFrame }
          actions := [.allocPage freshFrame, .memsetZero freshFrame] }) ∧
    (e.present = true →
      page_handle_cow freshFrame e =
        { ret := 1, entry := { e with kernel_cow := false }, actions := [] }) := by
  cases e with
  | mk p rw u g av kc fr =>
    cases p <;> simp_all [page_handle_cow]

/-- Witness for C1 (amended): concrete evaluation on a non-present COW
entry. -/
theorem c1_amended_witness :
    page_handle_cow 9 { kernel_cow := true, frame := 3 } =
      { ret := 0
        entry := { kernel_cow := false, present := true, frame := 9 }
        actions := [.allocPage 9, .memsetZero 9] } :=
  (c1_amended 9 { kernel_cow := true, frame := 3 } rfl).2.1 rfl

-- ===========================================================================
-- Page-fault handler (paging.c, page_fault_handler)
-- ===========================================================================

/-- The three error-code bits the fault handler extracts from the CPU error
code: faulting access came from user mode, was a write, and hit a present
entry (protection fault) rather than a non-present one. -/
structure FaultErr where
  user : Bool
  rw : Bool
  present : Bool
deriving DecidableEq

/-- Terminal outcome of a page fault: resolved (COW materialised), SIGSEGV
delivered to the current task followed by a scheduler rerun, or kernel
panic. -/
inductive FaultOutcome where
  | resolved
  | segv
  | panic
deriving DecidableEq

/-- Result of the page-fault handler: the outcome plus the final value of
the faulting page-table entry, of the original entry referenced through
the transient-mapping window, and the memory actions performed. -/
structure FaultResult where
  outcome : FaultOutcome
  entry : PageTableEntry
  origEntry : PageTableEntry
  actions : List MemAction
deriving DecidableEq

/-- Embedding of `page_fault_handler` (paging.c).  `dirPresent` is the
present bit of the page-directory entry for the faulting address;
`taskExists` tells whether `scheduler_get_current_process()` is non-null;
`inWindow` tells whether `virtual_check_address(faulting_addr)` holds, in
which case `origEntry` is the original entry whose address is stored in
the transient entry's payload.  `freshFrame` stands for the frame a buddy
allocation would return. -/
def page_fault_handler (dirPresent : Bool) (err : FaultErr) (taskExists : Bool)
    (inWindow : Bool) (entry origEntry : PageTableEntry) (freshFrame : Nat) :
    FaultResult :=
  if !dirPresent then
    { outcome := if err.user && taskExists then .segv else .panic
      entry := entry, origEntry := origEntry, actions := [] }
  else if inWindow then
    let r := page_handle_cow freshFrame origEntry
    if r.ret ≠ 0 then
      { outcome := .panic, entry := entry, origEntry := r.entry, actions := r.actions }
    else
      { outcome := .resolved
        entry := set_pg_table_flags
          { present := true, rw := true, global := true, cow := true, updaddr := true }
          { entry with frame := r.entry.frame }
        origEntry := r.entry
        actions := r.actions }
  else
    let r := page_handle_cow freshFrame entry
    if r.ret ≠ 0 then
      { outcome :=
          if err.user && err.rw && err.present then
            if taskExists then .segv else .panic
          else .panic
        entry := r.entry, origEntry := origEntry, actions := r.actions }
    else
      { outcome := .resolved, entry := r.entry, origEntry := origEntry, actions := r.actions }

/-- COW resolution fails (returns 1) whenever the entry is not marked COW
or is already present. -/
theorem page_handle_cow_fails (freshFrame : Nat) (e : PageTableEntry)
    (h : e.kernel_cow = false ∨ e.present = true) :
    (page_handle_cow freshFrame e).ret = 1 := by
  rcases h with hc | hp
  · simp [page_handle_cow, hc]
  · by_cases hc : e.kernel_cow = true
    · simp [page_handle_cow, hc, hp]
    · simp [page_handle_cow, hc]

/-- Claim C2 as stated: every fault with a non-present directory entry, and
every fault whose page-table entry is not marked COW, ends in SIGSEGV when
it came from user mode and in panic when it came from kernel mode. -/
def c2Stated : Prop :=
  ∀ (dirPresent : Bool) (err : FaultErr) (taskExists inWindow : Bool)
    (entry origEntry : PageTableEntry) (freshFrame : Nat),
    (dirPresent = false →
      (err.user = true →
        (page_fault_handler dirPresent err taskExists inWindow entry origEntry
          freshFrame).outcome = .segv) ∧
      (err.user = false →
        (page_fault_handler dirPresent err taskExists inWindow entry origEntry
          freshFrame).outcome = .panic)) ∧
    (dirPresent = true → inWindow = false → entry.kernel_cow = false →
      (err.user = true →
        (page_fault_handler dirPresent err taskExists inWindow entry origEntry
          freshFrame).outcome = .segv) ∧
      (err.user = false →
        (page_fault_handler dirPresent err taskExists inWindow entry origEntry
          freshFrame).outcome = .panic))

/-- A present, non-COW page-table entry. -/
def plainPresentEntry : PageTableEntry :=
  { present := true, rw := true, user := true, available := 1, frame := 5 }

/-- C2 counterexample: a user-mode read protection fault (error bits
user=1, rw=0, present=1) on a present directory entry and a non-COW
page-table entry panics the kernel instead of delivering SIGSEGV, because
the handler only delivers SIGSEGV when all three error bits are set. -/
theorem c2_counterexample : ¬ c2Stated := by
  intro h
  have h2 :=
    ((h true { user := true, rw := false, present := true } true false
        plainPresentEntry plainPresentEntry 9).2 rfl rfl rfl).1 rfl
  simp [page_fault_handler, page_handle_cow, plainPresentEntry] at h2

/-- C2 (amended): with a non-present directory entry the handler delivers
SIGSEGV exactly when the fault came from user mode and a current task
exists, and panics otherwise.  When the directory entry is present, the
faulting address is outside the transient-mapping window, and COW
resolution fails on the page-table entry (the entry is not marked COW, or
is already present), the handler delivers SIGSEGV exactly when the error
bits are user ∧ write ∧ present and a current task exists, and panics
otherwise — in particular a user-mode fault whose error bits differ from
user-write-present panics the kernel.  Inside the window a failed
resolution always panics. -/
theorem c2_amended (dirPresent : Bool) (err : FaultErr) (taskExists inWindow : Bool)
    (entry origEntry : PageTableEntry) (freshFrame : Nat) :
    (dirPresent = false →
      (page_fault_handler dirPresent err taskExists inWindow entry origEntry
        freshFrame).outcome =
        if err.user && taskExists then .segv else .panic) ∧
    (dirPresent = true → inWindow = false →
      (entry.kernel_cow = false ∨ entry.present = true) →
      (page_fault_handler dirPresent err taskExists inWindow entry origEntry
        freshFrame).outcome =
        if err.user && err.rw && err.present && taskExists then .segv else .panic) ∧
    (dirPresent = true → inWindow = true →
      (origEntry.kernel_cow = false ∨ origEntry.present = true) →
      (page_fault_handler dirPresent err taskExists inWindow entry origEntry
        freshFrame).outcome = .panic) := by
  obtain ⟨u, w, p⟩ := err
  refine ⟨?_, ?_, ?_⟩
  · rintro rfl
    cases u <;> cases taskExists <;> simp [page_fault_handler]
  · rintro rfl rfl hfail
    have hr := page_handle_cow_fails freshFrame entry hfail
    cases u <;> cases w <;> cases p <;> cases taskExists <;>
      simp [page_fault_handler, hr]
  · rintro rfl rfl hfail
    have hr := page_handle_cow_fails freshFrame origEntry hfail
    simp [page_fault_handler, hr]

/-- Witness for C2 (amended): a user-mode write protection fault on a
present non-COW entry, with a live task, is answered with SIGSEGV. -/
theorem c2_amended_witness :
    (page_fault_handler true { user := true, rw := true, present := true } true false
      plainPresentEntry plainPresentEntry 9).outcome = .segv := by
  have h :=
    (c2_amended true { user := true, rw := true, present := true } true false
      plainPresentEntry plainPresentEntry 9).2.1 rfl rfl (Or.inl rfl)
  simpa using h

-- ===========================================================================
-- VMA bookkeeping (paging.c: create_vm_area, clone_vm_area, destroy_vm_area,
-- is_valid_vm_area, sys_munmap)
-- ===========================================================================

/-- A virtual memory area (`vm_area_struct_t`): the half-open range
`[vm_start, vm_end)`.  The owning-mm back pointer is implicit in the
embedding (areas live inside their `MMState`). -/
structure VmArea where
  vm_start : Nat
  vm_end : Nat
deriving DecidableEq

/-- The bookkeeping part of `mm_struct_t`: the VMA list (in list order),
`map_count` and `total_vm`. -/
structure MMState where
  areas : List VmArea
  map_count : Nat
  total_vm : Nat
deriving DecidableEq

/-- An empty address space, as produced by `create_blank_process_image`
before its first `create_vm_area`. -/
def mm0 : MMState := { areas := [], map_count := 0, total_vm := 0 }

/-- Embedding of `is_valid_vm_area` (paging.c): -1 when the range is empty
or inverted, 0 when it collides with an existing area under the three
strict-inequality tests of the C code, 1 otherwise. -/
def is_valid_vm_area (mm : MMState) (vmStart vmEnd : Nat) : Int :=
  if vmEnd ≤ vmStart then -1
  else if mm.areas.any fun a =>
      (decide (a.vm_start < vmStart) && decide (vmStart < a.vm_end)) ||
      (decide (a.vm_start < vmEnd) && decide (vmEnd < a.vm_end)) ||
      (decide (vmStart < a.vm_start) && decide (a.vm_end < vmEnd)) then 0
  else 1

/-- Helper for `find_nearest_order_greater`: starting from order `o`, walk
upward (at most `fuel` steps) to the first order whose run of `2^o` pages
covers `n` pages. -/
def orderCoveringFrom : Nat → Nat → Nat → Nat
  | 0, o, _ => o
  | fuel + 1, o, n => if n ≤ 2 ^ o then o else orderCoveringFrom fuel (o + 1) n

/-- Modelled from the spec: `find_nearest_order_greater(base, amount)` from
the page-frame allocator (not among the sources) returns the smallest
buddy order whose run of `2^order` pages covers the requested size in
pages (spec 4.2: a buddy allocation of the smallest order at least
`size/PAGE_SIZE`).  The base-address argument is kept for call-site
fidelity; 32 steps cover every 32-bit size. -/
def find_nearest_order_greater (base amount : Nat) : Nat :=
  orderCoveringFrom 32 0 ((amount + PAGE_SIZE - 1) / PAGE_SIZE)

/-- Insert an area into a list sorted by `vm_start`. -/
def insertByStart (a : VmArea) : List VmArea → List VmArea
  | [] => [a]
  | b :: rest =>
    if a.vm_start ≤ b.vm_start then a :: b :: rest else b :: insertByStart a rest

/-- Modelled from the spec: `list_head_sort(&mm->mmap_list, vm_area_compare)`
sorts the VMA list by `vm_start` (spec 4.2: the VMA is inserted and the
list resorted by `vm_start`); `vm_area_compare` itself is not among the
sources.  Implemented as insertion sort. -/
def sortByStart : List VmArea → List VmArea
  | [] => []
  | a :: rest => insertByStart a (sortByStart rest)

/-- Embedding of the bookkeeping performed by `create_vm_area` (paging.c):
panic (`none`) when `is_valid_vm_area` does not report 1; otherwise insert
the new area, resort the list by `vm_start`, increment `map_count`, and add
`2^order` to `total_vm`, `order` being `find_nearest_order_greater(vm_start,
size)`.  The page-table update it performs is embedded separately as
`create_vm_area_mapping`. -/
def create_vm_area (mm : MMState) (vmStart size : Nat) : Option MMState :=
  if is_valid_vm_area mm vmStart (vmStart + size) ≤ 0 then none
  else
    some
      { areas := sortByStart (⟨vmStart, vmStart + size⟩ :: mm.areas)
        map_count := mm.map_count + 1
        total_vm := mm.total_vm + 2 ^ find_nearest_order_greater vmStart size }

/-- Embedding of the bookkeeping performed by `clone_vm_area` (paging.c):
the cloned area is copied, inserted at the head of the destination list
with no validity check and no resort, `map_count` is incremented, and
`total_vm` grows by `2^order` for the area's size. -/
def clone_vm_area (mm : MMState) (area : VmArea) : MMState :=
  { areas := area :: mm.areas
    map_count := mm.map_count + 1
    total_vm :=
      mm.total_vm + 2 ^ find_nearest_order_greater area.vm_start (area.vm_end - area.vm_start) }

/-- Embedding of the bookkeeping performed by `destroy_vm_area` (paging.c):
the area is unlinked from the list and `map_count` is decremented;
`total_vm` is left untouched.  The frame-freeing walk is not part of the
bookkeeping.  Destroying an area that is not in the list is a caller error
(`none`). -/
def destroy_vm_area (mm : MMState) (area : VmArea) : Option MMState :=
  if area ∈ mm.areas then
    some
      { areas := mm.areas.erase area
        map_count := mm.map_count - 1
        total_vm := mm.total_vm }
  else none

/-- One VMA-list operation of claim C4. -/
inductive MMOp where
  | create (vmStart size : Nat)
  | clone (area : VmArea)
  | destroy (area : VmArea)
deriving DecidableEq

/-- Apply one operation (`none` = kernel panic / caller error). -/
def applyOp (mm : MMState) : MMOp → Option MMState
  | .create s sz => create_vm_area mm s sz
  | .clone a => some (clone_vm_area mm a)
  | .destroy a => destroy_vm_area mm a

/-- Apply a sequence of operations. -/
def applyOps (mm : MMState) : List MMOp → Option MMState
  | [] => some mm
  | op :: rest =>
    match applyOp mm op with
    | some mm' => applyOps mm' rest
    | none => none

/-- Pairwise disjointness of the areas in a list. -/
def pairwiseDisjointB : List VmArea → Bool
  | [] => true
  | a :: rest =>
    (rest.all fun b => decide (a.vm_end ≤ b.vm_start) || decide (b.vm_end ≤ a.vm_start)) &&
      pairwiseDisjointB rest

/-- Sortedness of the list by `vm_start`. -/
def sortedByStartB : List VmArea → Bool
  | [] => true
  | [_] => true
  | a :: b :: rest => decide (a.vm_start ≤ b.vm_start) && sortedByStartB (b :: rest)

/-- Claim C4 as stated, on one state: VMAs pairwise disjoint and sorted by
`vm_start`, `map_count` equal to the list length, and `total_vm` equal to
the page count summed over the areas. -/
def c4Stated (s : MMState) : Prop :=
  pairwiseDisjointB s.areas = true ∧
  sortedByStartB s.areas = true ∧
  s.map_count = s.areas.length ∧
  s.total_vm = (s.areas.map fun a => (a.vm_end - a.vm_start) / PAGE_SIZE).sum

/-- A sequence of operations accepted by the code: a one-page area created
twice at the same range (the strict inequalities of `is_valid_vm_area` let
an exactly coinciding range through), then a three-page area cloned in. -/
def c4BadOps : List MMOp :=
  [.create 0x5000 0x1000, .create 0x5000 0x1000, .clone ⟨0x6000, 0x9000⟩]

/-- C4 counterexample: after `c4BadOps` the list holds two copies of
`[0x5000,0x6000)` (not disjoint), the cloned area sits at the head above a
lower-addressed area (not sorted), and `total_vm` is 6 while the areas
cover 5 pages (the clone of 3 pages accounted `2^2` and `total_vm` is
never reduced), so the claimed invariant fails; only `map_count` = length
holds. -/
theorem c4_counterexample :
    applyOps mm0 c4BadOps =
      some
        { areas := [⟨0x6000, 0x9000⟩, ⟨0x5000, 0x6000⟩, ⟨0x5000, 0x6000⟩]
          map_count := 3
          total_vm := 6 } ∧
    ¬ c4Stated
        { areas := [⟨0x6000, 0x9000⟩, ⟨0x5000, 0x6000⟩, ⟨0x5000, 0x6000⟩]
          map_count := 3
          total_vm := 6 } := by
  constructor
  · decide
  · intro h
    exact absurd h.1 (by decide)

/-- Inserting into the sorted list adds one element. -/
theorem insertByStart_length (a : VmArea) (l : List VmArea) :
    (insertByStart a l).length = l.length + 1 := by
  induction l with
  | nil => rfl
  | cons b rest ih =>
    by_cases h : a.vm_start ≤ b.vm_start <;> simp [insertByStart, h, ih]

/-- Sorting preserves the length of the list. -/
theorem sortByStart_length (l : List VmArea) :
    (sortByStart l).length = l.length := by
  induction l with
  | nil => rfl
  | cons a rest ih => simp [sortByStart, insertByStart_length, ih]

/-- The pages `total_vm` gains from one operation: `2^order` for a create
or clone, nothing for a destroy. -/
def opPages : MMOp → Nat
  | .create s sz => 2 ^ find_nearest_order_greater s sz
  | .clone a => 2 ^ find_nearest_order_greater a.vm_start (a.vm_end - a.vm_start)
  | .destroy _ => 0

/-- Total pages accumulated into `total_vm` by a sequence of operations. -/
def opsPages (ops : List MMOp) : Nat := (ops.map opPages).sum

/-- Each successful operation preserves `map_count` = length and adds
exactly `opPages` to `total_vm`. -/
theorem applyOp_bookkeeping (mm : MMState) (op : MMOp) (mm' : MMState)
    (h : applyOp mm op = some mm') :
    (mm.map_count = mm.areas.length → mm'.map_count = mm'.areas.length) ∧
    mm'.total_vm = mm.total_vm + opPages op := by
  cases op with
  | create s sz =>
    by_cases hv : is_valid_vm_area mm s (s + sz) ≤ 0
    · simp [applyOp, create_vm_area, hv] at h
    · simp [applyOp, create_vm_area, hv] at h
      subst h
      refine ⟨fun hmc => ?_, ?_⟩
      · simp [sortByStart_length, hmc]
      · simp [opPages]
  | clone a =>
    simp [applyOp] at h
    subst h
    refine ⟨fun hmc => ?_, ?_⟩
    · simp [clone_vm_area, hmc]
    · simp [clone_vm_area, opPages]
  | destroy a =>
    by_cases hm : a ∈ mm.areas
    · simp [applyOp, destroy_vm_area, hm] at h
      subst h
      refine ⟨fun hmc => ?_, ?_⟩
      · have hlen := List.length_erase_of_mem hm
        have hpos : 0 < mm.areas.length := List.length_pos.mpr (List.ne_nil_of_mem hm)
        simp only []
        omega
      · simp [opPages]
    · simp [applyOp, destroy_vm_area, hm] at h

/-- Bookkeeping over a whole sequence, from any starting state. -/
theorem applyOps_bookkeeping (ops : List MMOp) :
    ∀ (mm mm' : MMState), applyOps mm ops = some mm' →
      (mm.map_count = mm.areas.length → mm'.map_count = mm'.areas.length) ∧
      mm'.total_vm = mm.total_vm + opsPages ops := by
  induction ops with
  | nil =>
    intro mm mm' h
    simp [applyOps] at h
    subst h
    simp [opsPages]
  | cons op rest ih =>
    intro mm mm' h
    simp only [applyOps] at h
    cases hstep : applyOp mm op with
    | none => rw [hstep] at h; exact absurd h (by simp)
    | some mid =>
      rw [hstep] at h
      have h1 := applyOp_bookkeeping mm op mid hstep
      have h2 := ih mid mm' h
      refine ⟨fun hmc => h2.1 (h1.1 hmc), ?_⟩
      rw [h2.2, h1.2]
      simp [opsPages]
      omega

/-- C4 (amended): after any sequence of `create_vm_area`, `clone_vm_area`
and `destroy_vm_area` operations accepted by the code, `map_count` equals
the number of VMAs in the list, and `total_vm` equals the sum over the
create and clone operations of `2^order` pages (`order` the buddy order
covering the requested size) — it is never decremented by destroy.  The
list need not stay pairwise disjoint or sorted: `clone_vm_area` inserts at
the head without a validity check or resort, and `is_valid_vm_area` admits
a range exactly coinciding with an existing area. -/
theorem c4_amended (ops : List MMOp) (s : MMState)
    (h : applyOps mm0 ops = some s) :
    s.map_count = s.areas.length ∧ s.total_vm = opsPages ops := by
  have hb := applyOps_bookkeeping ops mm0 s h
  exact ⟨hb.1 rfl, by simpa [mm0] using hb.2⟩

/-- Witness for C4 (amended): concrete evaluation on the three-operation
sequence of the counterexample. -/
theorem c4_amended_witness :
    ({ areas := [⟨0x6000, 0x9000⟩, ⟨0x5000, 0x6000⟩, ⟨0x5000, 0x6000⟩]
       map_count := 3, total_vm := 6 } : MMState).map_count =
      ({ areas := [⟨0x6000, 0x9000⟩, ⟨0x5000, 0x6000⟩, ⟨0x5000, 0x6000⟩]
         map_count := 3, total_vm := 6 } : MMState).areas.length ∧
    ({ areas := [⟨0x6000, 0x9000⟩, ⟨0x5000, 0x6000⟩, ⟨0x5000, 0x6000⟩]
       map_count := 3, total_vm := 6 } : MMState).total_vm = opsPages c4BadOps :=
  c4_amended c4BadOps _ (by decide)

/-- The segment size `vm_end - vm_start` computed by `sys_munmap` in
32-bit unsigned arithmetic. -/
def areaSizeMod (a : VmArea) : Nat := (a.vm_end + 2 ^ 32 - a.vm_start) % 2 ^ 32

/-- One step of the `sys_munmap` search: remove the first area of the list
whose `vm_start` is `addr` and whose size is `len`, or report that none
matches. -/
def removeFirstMatch (addr len : Nat) : List VmArea → Option (List VmArea)
  | [] => none
  | a :: rest =>
    if a.vm_start = addr ∧ areaSizeMod a = len then some rest
    else (removeFirstMatch addr len rest).map (a :: ·)

/-- Embedding of `sys_munmap` (paging.c): walk the VMA list from the tail
(`list_for_each_prev`), destroy the first area whose start and size match
exactly and return 0; return 1 leaving the list untouched when no area
matches. -/
def sys_munmap (mm : MMState) (addr len : Nat) : Int × MMState :=
  match removeFirstMatch addr len mm.areas.reverse with
  | some l =>
    (0, { areas := l.reverse, map_count := mm.map_count - 1, total_vm := mm.total_vm })
  | none => (1, mm)

/-- The search fails exactly when no area matches. -/
theorem removeFirstMatch_none_iff (addr len : Nat) (l : List VmArea) :
    removeFirstMatch addr len l = none ↔
      ∀ a ∈ l, ¬(a.vm_start = addr ∧ areaSizeMod a = len) := by
  induction l with
  | nil => simp [removeFirstMatch]
  | cons a rest ih =>
    by_cases h : a.vm_start = addr ∧ areaSizeMod a = len
    · simp [removeFirstMatch, h]
    · simp [removeFirstMatch, h, ih]
      exact fun _ h1 h2 => h ⟨h1, h2⟩

/-- A successful search removes one matching area, up to permutation. -/
theorem removeFirstMatch_some (addr len : Nat) (l l' : List VmArea)
    (h : removeFirstMatch addr len l = some l') :
    ∃ a ∈ l, (a.vm_start = addr ∧ areaSizeMod a = len) ∧ l.Perm (a :: l') := by
  induction l generalizing l' with
  | nil => simp [removeFirstMatch] at h
  | cons a rest ih =>
    by_cases hm : a.vm_start = addr ∧ areaSizeMod a = len
    · simp [removeFirstMatch, hm] at h
      exact ⟨a, by simp, hm, by rw [h]⟩
    · simp [removeFirstMatch, hm] at h
      obtain ⟨l'', hl'', rfl⟩ := h
      obtain ⟨b, hbmem, hbmatch, hperm⟩ := ih l'' hl''
      refine ⟨b, by simp [hbmem], hbmatch, ?_⟩
      exact (hperm.cons a).trans (List.Perm.swap b a l'')

/-- Claim C5: `sys_munmap` succeeds (returns 0) precisely when some VMA of
the address space matches `addr` and `length` exactly; on success that
matching VMA is the one removed from the list, and on failure the list is
returned unchanged (partial unmaps are rejected). -/
theorem c5_sys_munmap (mm : MMState) (addr len : Nat) :
    ((sys_munmap mm addr len).1 = 0 ↔
      ∃ a ∈ mm.areas, a.vm_start = addr ∧ areaSizeMod a = len) ∧
    ((sys_munmap mm addr len).1 ≠ 0 → (sys_munmap mm addr len).2 = mm) ∧
    ((sys_munmap mm addr len).1 = 0 →
      ∃ a ∈ mm.areas, (a.vm_start = addr ∧ areaSizeMod a = len) ∧
        mm.areas.Perm (a :: (sys_munmap mm addr len).2.areas)) := by
  cases hrm : removeFirstMatch addr len mm.areas.reverse with
  | none =>
    have hno := (removeFirstMatch_none_iff addr len mm.areas.reverse).mp hrm
    refine ⟨?_, ?_, ?_⟩
    · simp only [sys_munmap, hrm]
      constructor
      · intro h; exact absurd h (by norm_num)
      · rintro ⟨a, hmem, hmatch⟩
        exact absurd hmatch (hno a (by simpa using hmem))
    · intro _; simp [sys_munmap, hrm]
    · intro h; simp [sys_munmap, hrm] at h
  | some l =>
    obtain ⟨a, hmem, hmatch, hperm⟩ := removeFirstMatch_some addr len _ l hrm
    have hmem' : a ∈ mm.areas := by simpa using hmem
    refine ⟨?_, ?_, ?_⟩
    · constructor
      · intro _
        exact ⟨a, hmem', hmatch⟩
      · intro _
        simp [sys_munmap, hrm]
    · intro h; simp [sys_munmap, hrm] at h
    · intro _
      refine ⟨a, hmem', hmatch, ?_⟩
      simp only [sys_munmap, hrm]
      have h1 : mm.areas.Perm (a :: l) := (mm.areas.reverse_perm).symm.trans hperm
      exact h1.trans ((l.reverse_perm.symm).cons a)

/-- Witness for C5: a two-page area unmapped with the exact
start-and-length pair succeeds. -/
theorem c5_sys_munmap_witness :
    (sys_munmap { areas := [⟨0x5000, 0x7000⟩], map_count := 1, total_vm := 2 }
      0x5000 0x2000).1 = 0 :=
  (c5_sys_munmap { areas := [⟨0x5000, 0x7000⟩], map_count := 1, total_vm := 2 }
    0x5000 0x2000).1.mpr (by decide)

-- ===========================================================================
-- Page-range update (paging.c: mem_upd_vm_area) and the mapping side of
-- create_vm_area (claim C6)
-- ===========================================================================

/-- One step of the `mem_upd_vm_area` loop: when `MM_UPDADDR` is set the
entry's frame is taken from the advancing physical PFN, then the flag bits
are written. -/
def memUpdEntry (flags : MMFlags) (phyPfn : Nat) (e : PageTableEntry) : PageTableEntry :=
  set_pg_table_flags flags (if flags.updaddr then { e with frame := phyPfn } else e)

/-- Embedding of `mem_upd_vm_area` (paging.c) on the page-table entries of
the updated range: the physical PFN advances by one per page, giving a
contiguous mapping when `MM_UPDADDR` is set. -/
def mem_upd_vm_area (flags : MMFlags) (phyPfn : Nat) : List PageTableEntry → List PageTableEntry
  | [] => []
  | e :: rest => memUpdEntry flags phyPfn e :: mem_upd_vm_area flags (phyPfn + 1) rest

/-- What the mapping half of `create_vm_area` produces: the buddy order
allocated (none when backing is deferred) and the updated entries of the
range. -/
structure CreateMapResult where
  allocOrder : Option Nat
  entries : List PageTableEntry
deriving DecidableEq

/-- Embedding of the mapping performed by `create_vm_area` (paging.c): with
`MM_COW` requested the flags lose `MM_PRESENT` and `MM_UPDADDR` and no
frames are allocated (`phy_start = 0`); otherwise `MM_UPDADDR` is added, a
buddy run of order `find_nearest_order_greater(vm_start, size)` is
allocated at physical address `allocPhys`, and the range is mapped from
it.  `old` holds the current page-table entries of the range, one per
page. -/
def create_vm_area_mapping (vmStart size : Nat) (pgflags : MMFlags) (allocPhys : Nat)
    (old : List PageTableEntry) : CreateMapResult :=
  if pgflags.cow then
    { allocOrder := none
      entries := mem_upd_vm_area { pgflags with present := false, updaddr := false } 0 old }
  else
    { allocOrder := some (find_nearest_order_greater vmStart size)
      entries := mem_upd_vm_area { pgflags with updaddr := true } (allocPhys / PAGE_SIZE) old }

/-- The update preserves the number of entries. -/
theorem mem_upd_vm_area_length (flags : MMFlags) (phyPfn : Nat) (l : List PageTableEntry) :
    (mem_upd_vm_area flags phyPfn l).length = l.length := by
  induction l generalizing phyPfn with
  | nil => rfl
  | cons e rest ih => simp [mem_upd_vm_area, ih]

/-- Pointwise description of the update. -/
theorem mem_upd_vm_area_get (flags : MMFlags) (phyPfn : Nat) (l : List PageTableEntry)
    (i : Nat) (h : i < (mem_upd_vm_area flags phyPfn l).length) (h' : i < l.length) :
    (mem_upd_vm_area flags phyPfn l).get ⟨i, h⟩ =
      memUpdEntry flags (phyPfn + i) (l.get ⟨i, h'⟩) := by
  induction l generalizing phyPfn i with
  | nil => simp at h'
  | cons e rest ih =>
    cases i with
    | zero => simp [mem_upd_vm_area]
    | succ j =>
      have hj : j < (mem_upd_vm_area flags (phyPfn + 1) rest).length := by
        simpa [mem_upd_vm_area] using h
      have hj' : j < rest.length := by simpa using h'
      have := ih (phyPfn + 1) j hj hj'
      have harith : phyPfn + 1 + j = phyPfn + (j + 1) := by omega
      simpa [mem_upd_vm_area, harith] using this

/-- The order search settles on the smallest covering order, provided the
fuel suffices. -/
theorem orderCoveringFrom_spec (fuel : Nat) :
    ∀ (o n : Nat), (∀ o' < o, 2 ^ o' < n) → n ≤ 2 ^ (o + fuel) →
      n ≤ 2 ^ orderCoveringFrom fuel o n ∧
      ∀ o' < orderCoveringFrom fuel o n, 2 ^ o' < n := by
  induction fuel with
  | zero =>
    intro o n hmono hcov
    exact ⟨by simpa using hcov, by simpa [orderCoveringFrom] using hmono⟩
  | succ f ih =>
    intro o n hmono hcov
    by_cases hle : n ≤ 2 ^ o
    · simp only [orderCoveringFrom, if_pos hle]
      exact ⟨hle, hmono⟩
    · simp only [orderCoveringFrom, if_neg hle]
      apply ih (o + 1) n
      · intro o' ho'
        rcases Nat.lt_succ_iff_lt_or_eq.mp ho' with hlt | heq
        · exact hmono o' hlt
        · subst heq; omega
      · have harith : o + 1 + f = o + (f + 1) := by omega
        rw [harith]; exact hcov

/-- For any 32-bit size, `find_nearest_order_greater` returns the smallest
order whose run covers the size in pages. -/
theorem find_nearest_order_greater_spec (base amount : Nat) (h : amount ≤ 2 ^ 32) :
    (amount + PAGE_SIZE - 1) / PAGE_SIZE ≤ 2 ^ find_nearest_order_greater base amount ∧
    ∀ o' < find_nearest_order_greater base amount,
      2 ^ o' < (amount + PAGE_SIZE - 1) / PAGE_SIZE := by
  apply orderCoveringFrom_spec 32 0
  · intro o' ho'; omega
  · have h1 : amount + PAGE_SIZE - 1 ≤ 2 ^ 32 + 4095 := by
      simp only [PAGE_SIZE]; omega
    have h2 : (amount + PAGE_SIZE - 1) / PAGE_SIZE ≤ (2 ^ 32 + 4095) / 4096 :=
      Nat.div_le_div_right (by simpa [PAGE_SIZE] using h1)
    have h3 : (2 ^ 32 + 4095) / 4096 ≤ 2 ^ (0 + 32) := by norm_num
    exact h2.trans h3

/-- Claim C6 as stated, at given inputs: with COW no frames are allocated
and every entry in the range becomes COW and non-present; otherwise one
buddy allocation of the smallest covering order is performed and the range
is mapped present and contiguously from its physical start. -/
def c6Stated (vmStart size : Nat) (pgflags : MMFlags) (allocPhys : Nat)
    (old : List PageTableEntry) : Prop :=
  (pgflags.cow = true →
    (create_vm_area_mapping vmStart size pgflags allocPhys old).allocOrder = none ∧
    ∀ i (h : i < (create_vm_area_mapping vmStart size pgflags allocPhys old).entries.length),
      ((create_vm_area_mapping vmStart size pgflags allocPhys old).entries.get
        ⟨i, h⟩).kernel_cow = true ∧
      ((create_vm_area_mapping vmStart size pgflags allocPhys old).entries.get
        ⟨i, h⟩).present = false) ∧
  (pgflags.cow = false →
    (∃ o, (create_vm_area_mapping vmStart size pgflags allocPhys old).allocOrder = some o ∧
      (size + PAGE_SIZE - 1) / PAGE_SIZE ≤ 2 ^ o ∧
      ∀ o' < o, 2 ^ o' < (size + PAGE_SIZE - 1) / PAGE_SIZE) ∧
    ∀ i (h : i < (create_vm_area_mapping vmStart size pgflags allocPhys old).entries.length),
      ((create_vm_area_mapping vmStart size pgflags allocPhys old).entries.get
        ⟨i, h⟩).present = true ∧
      ((create_vm_area_mapping vmStart size pgflags allocPhys old).entries.get
        ⟨i, h⟩).frame = allocPhys / PAGE_SIZE + i)

/-- C6 counterexample: a non-COW call whose `pgflags` do not include
`MM_PRESENT` (here only `MM_RW`) allocates and maps the range contiguously
but leaves every entry non-present, because the present bit is copied from
`pgflags` rather than forced — so the claim's "mapped present" fails. -/
theorem c6_counterexample :
    ¬ c6Stated 0x5000 0x1000 { rw := true } 0x20000 [{}] := by
  intro h
  have h2 := (h.2 rfl).2 0
    (by simp [create_vm_area_mapping, mem_upd_vm_area])
  simp [create_vm_area_mapping, mem_upd_vm_area, memUpdEntry, set_pg_table_flags] at h2

/-- C6 (amended): with COW requested no frames are allocated and every
entry of the range is marked COW, made non-present, and keeps its frame;
otherwise one buddy allocation of the smallest order covering the size in
pages is performed and the range is mapped contiguously from its physical
start, each entry's present bit (and rw/user/global) copied from
`pgflags` — the range is mapped present exactly when `pgflags` contains
`MM_PRESENT`. -/
theorem c6_amended (vmStart size : Nat) (pgflags : MMFlags) (allocPhys : Nat)
    (old : List PageTableEntry) (hsize : size ≤ 2 ^ 32) :
    (pgflags.cow = true →
      (create_vm_area_mapping vmStart size pgflags allocPhys old).allocOrder = none ∧
      ∀ i (h : i < (create_vm_area_mapping vmStart size pgflags allocPhys old).entries.length)
        (h' : i < old.length),
        (create_vm_area_mapping vmStart size pgflags allocPhys old).entries.get ⟨i, h⟩ =
          { present := false, rw := pgflags.rw, user := pgflags.user
            global := pgflags.global, available := 1, kernel_cow := true
            frame := (old.get ⟨i, h'⟩).frame }) ∧
    (pgflags.cow = false →
      (create_vm_area_mapping vmStart size pgflags allocPhys old).allocOrder =
        some (find_nearest_order_greater vmStart size) ∧
      (size + PAGE_SIZE - 1) / PAGE_SIZE ≤ 2 ^ find_nearest_order_greater vmStart size ∧
      (∀ o' < find_nearest_order_greater vmStart size,
        2 ^ o' < (size + PAGE_SIZE - 1) / PAGE_SIZE) ∧
      ∀ i (h : i < (create_vm_area_mapping vmStart size pgflags allocPhys old).entries.length)
        (h' : i < old.length),
        (create_vm_area_mapping vmStart size pgflags allocPhys old).entries.get ⟨i, h⟩ =
          { present := pgflags.present, rw := pgflags.rw, user := pgflags.user
            global := pgflags.global, available := 1, kernel_cow := false
            frame := allocPhys / PAGE_SIZE + i }) := by
  obtain ⟨fp, fr, fu, fg, fc, fd⟩ := pgflags
  constructor
  · intro hcow
    replace hcow : fc = true := hcow
    subst hcow
    constructor
    · simp [create_vm_area_mapping]
    · intro i h h'
      have hlen : i < (mem_upd_vm_area
          { present := false, rw := fr, user := fu, global := fg
            cow := true, updaddr := false } 0 old).length := by
        simpa [create_vm_area_mapping] using h
      have hget := mem_upd_vm_area_get
        { present := false, rw := fr, user := fu, global := fg
          cow := true, updaddr := false } 0 old i hlen h'
      simp only [List.get_eq_getElem] at hget
      simp [create_vm_area_mapping, hget, memUpdEntry, set_pg_table_flags]
  · intro hcow
    replace hcow : fc = false := hcow
    subst hcow
    obtain ⟨hcov, hmin⟩ := find_nearest_order_greater_spec vmStart size hsize
    refine ⟨by simp [create_vm_area_mapping], hcov, hmin, ?_⟩
    intro i h h'
    have hlen : i < (mem_upd_vm_area
        { present := fp, rw := fr, user := fu, global := fg
          cow := false, updaddr := true } (allocPhys / PAGE_SIZE) old).length := by
      simpa [create_vm_area_mapping] using h
    have hget := mem_upd_vm_area_get
      { present := fp, rw := fr, user := fu, global := fg
        cow := false, updaddr := true } (allocPhys / PAGE_SIZE) old i hlen h'
    simp only [List.get_eq_getElem] at hget
    simp [create_vm_area_mapping, hget, memUpdEntry, set_pg_table_flags]

/-- Witness for C6 (amended): a one-page COW area defers its backing and
marks the entry COW and non-present. -/
theorem c6_amended_witness :
    (create_vm_area_mapping 0x5000 0x1000
      { present := true, rw := true, user := true, cow := true } 0
      [{ frame := 11 }]).allocOrder = none ∧
    (create_vm_area_mapping 0x5000 0x1000
      { present := true, rw := true, user := true, cow := true } 0
      [{ frame := 11 }]).entries.get ⟨0, by decide⟩ =
      { present := false, rw := true, user := true, global := false
        available := 1, kernel_cow := true, frame := 11 } := by
  have h := (c6_amended 0x5000 0x1000
    { present := true, rw := true, user := true, cow := true } 0
    [{ frame := 11 }] (by norm_num)).1 rfl
  exact ⟨h.1, by simpa using h.2 0 (by decide) (by decide)⟩

-- ===========================================================================
-- DevFS (devfs.c): data model and lookup helpers
-- ===========================================================================

/-- Modelled from the spec: errno values (spec section 6 lists the errno
names; `sys/errno.h` is not among the sources).  Conventional Linux
numbering; only distinctness and positivity matter to the claims. -/
def EPERM : Int := 1
/-- Modelled from the spec: errno ENOENT. -/
def ENOENT : Int := 2
/-- Modelled from the spec: errno EACCES. -/
def EACCES : Int := 13
/-- Modelled from the spec: errno EFAULT. -/
def EFAULT : Int := 14
/-- Modelled from the spec: errno EBUSY. -/
def EBUSY : Int := 16
/-- Modelled from the spec: errno EEXIST. -/
def EEXIST : Int := 17
/-- Modelled from the spec: errno ENOTDIR. -/
def ENOTDIR : Int := 20
/-- Modelled from the spec: errno EISDIR. -/
def EISDIR : Int := 21
/-- Modelled from the spec: errno EINVAL. -/
def EINVAL : Int := 22
/-- Modelled from the spec: errno ENFILE. -/
def ENFILE : Int := 23
/-- Modelled from the spec: errno ENOSYS. -/
def ENOSYS : Int := 38

/-- Modelled from the spec: the `DT_*` node-type bits used by devfs
(`dirent.h` is not among the sources); conventional values. -/
def DT_DIR : Nat := 4
/-- Modelled from the spec: regular-file type bit. -/
def DT_REG : Nat := 8
/-- Modelled from the spec: symlink type value. -/
def DT_LNK : Nat := 10

/-- Modelled from the spec: the `O_*` open flags (`fcntl.h` is not among
the sources); conventional Linux values. -/
def O_WRONLY : Nat := 1
/-- Modelled from the spec: read-write access mode bit. -/
def O_RDWR : Nat := 2
/-- Modelled from the spec: create-if-missing flag. -/
def O_CREAT : Nat := 64
/-- Modelled from the spec: exclusive-create flag. -/
def O_EXCL : Nat := 128
/-- Modelled from the spec: require-directory flag. -/
def O_DIRECTORY : Nat := 65536

/-- Modelled from the spec: `bitmask_check(v, mask)` from `sys/bitops.h`
(not among the sources) is the conventional C bit test `(v) & (mask)`,
true when the intersection is non-zero. -/
def bitmask_check (v mask : Nat) : Bool := v &&& mask != 0

/-- The magic constant every live devfs node carries
(`DEVFS_MAGIC_NUMBER`). -/
def DEVFS_MAGIC_NUMBER : Nat := 0xBF

/-- Which members of a driver-supplied `vfs_file_operations_t` table are
non-null.  The dispatchers only test the pointers for presence before
delegating, so presence is all the embedding needs. -/
structure FsOpsPresent where
  read_f : Bool := false
  write_f : Bool := false
  lseek_f : Bool := false
  stat_f : Bool := false
  ioctl_f : Bool := false
  getdents_f : Bool := false
deriving DecidableEq

/-- A devfs node (`devfs_file_t`): magic integrity word, inode, `DT_*`
type flags, the full path name, last-access time, the number of open
`vfs_file` handles on its `files` list, and the driver-supplied file-ops
table of its `dir_entry` (none when the driver left it null). -/
structure DevfsFile where
  magic : Nat := DEVFS_MAGIC_NUMBER
  inode : Nat := 0
  flags : Nat := 0
  name : String := ""
  atime : Nat := 0
  openFiles : Nat := 0
  fs_operations : Option FsOpsPresent := none
deriving DecidableEq

/-- Embedding of `devfs_check_file` (devfs.c): a node is valid when its
magic word is intact. -/
def devfs_check_file (f : DevfsFile) : Bool := f.magic == DEVFS_MAGIC_NUMBER

/-- Embedding of `devfs_find_entry_path` (devfs.c): first valid node with
the given full path. -/
def devfs_find_entry_path (files : List DevfsFile) (path : String) : Option DevfsFile :=
  files.find? fun f => devfs_check_file f && f.name == path

/-- Embedding of `devfs_find_entry_inode` (devfs.c): first valid node with
the given inode. -/
def devfs_find_entry_inode (files : List DevfsFile) (ino : Nat) : Option DevfsFile :=
  files.find? fun f => devfs_check_file f && f.inode == ino

/-- Embedding of `devfs_get_free_inode` (devfs.c): the smallest inode in
`[1, DEVFS_MAX_FILES)` not in use; 0 stands for the C function's -1
failure value (no live node carries inode 0). -/
def devfs_get_free_inode (files : List DevfsFile) : Nat :=
  match (List.range 1024).find? fun i =>
      decide (1 ≤ i) && (devfs_find_entry_inode files i).isNone with
  | some i => i
  | none => 0

/-- Helper for the last-slash search of `dirname`: the characters before
the last slash, or none when the list has no slash. -/
def dirnameChars : List Char → Option (List Char)
  | [] => none
  | c :: rest =>
    match dirnameChars rest with
    | some d => some (c :: d)
    | none => if c = '/' then some [] else none

/-- Modelled from the spec: `dirname` from the C library (not among the
sources) — the directory part of a path: everything before the last
slash, `/` when that part is empty, `.` when the path has no slash. -/
def dirname (path : String) : String :=
  match dirnameChars path.toList with
  | none => "."
  | some [] => "/"
  | some cs => String.mk cs

/-- Update the first node satisfying the test (the one the C code holds a
pointer to after a successful lookup). -/
def updateFirst (p : DevfsFile → Bool) (g : DevfsFile → DevfsFile) :
    List DevfsFile → List DevfsFile
  | [] => []
  | f :: rest => if p f then g f :: rest else f :: updateFirst p g rest

-- ===========================================================================
-- DevFS operations (devfs.c)
-- ===========================================================================

/-- Result of a successful `devfs_open`: the updated node list (fresh
`vfs_file` linked onto the node, access time updated) and the inode of
the node the handle refers to.  Slab allocation of the `vfs_file` is
modelled as always succeeding, so the `ENFILE` shortage path does not
arise. -/
structure OpenOk where
  files : List DevfsFile
  openedIno : Nat
deriving DecidableEq

/-- Linking a fresh `vfs_file` onto a node and refreshing its access time
(the common tail of the existing-node open paths). -/
def linkOpenFile (files : List DevfsFile) (path : String) (now : Nat) : List DevfsFile :=
  updateFirst (fun f => devfs_check_file f && f.name == path)
    (fun n => { n with atime := now, openFiles := n.openFiles + 1 }) files

/-- Embedding of `devfs_create_file` (devfs.c): a fresh regular node with
the next free inode, all times set to now, appended at the tail of the
global list (`list_head_insert_before` of the sentinel). -/
def devfs_create_file (files : List DevfsFile) (path : String) (flags now : Nat) :
    List DevfsFile × Nat :=
  let ino := devfs_get_free_inode files
  (files ++ [{ magic := DEVFS_MAGIC_NUMBER, inode := ino, flags := flags
               name := path, atime := now, openFiles := 0, fs_operations := none }],
   ino)

/-- The part of `devfs_open` (devfs.c) that runs after the parent checks:
an existing leaf rejects `O_CREAT`/`O_EXCL` with `EEXIST`, runs the
directory checks only under `O_DIRECTORY` (`ENOTDIR` for a non-directory,
`EISDIR` for write access to a directory), and otherwise links a fresh
`vfs_file` and refreshes `atime`; a missing leaf is created under
`O_CREAT` and `ENOENT` otherwise. -/
def devfs_open_leaf (files : List DevfsFile) (path : String) (oflags : Nat) (now : Nat) :
    Except Int OpenOk :=
  match devfs_find_entry_path files path with
  | some f =>
    if bitmask_check oflags (O_CREAT ||| O_EXCL) then .error EEXIST
    else if bitmask_check oflags O_DIRECTORY then
      if !bitmask_check f.flags DT_DIR then .error ENOTDIR
      else if bitmask_check oflags O_RDWR || bitmask_check oflags O_WRONLY then .error EISDIR
      else .ok { files := linkOpenFile files path now, openedIno := f.inode }
    else .ok { files := linkOpenFile files path now, openedIno := f.inode }
  | none =>
    if bitmask_check oflags O_CREAT then
      let created := devfs_create_file files path DT_REG now
      .ok { files := created.1, openedIno := created.2 }
    else .error ENOENT

/-- Embedding of `devfs_open` (devfs.c): validate that the parent path is
`.` or `/` or names an existing directory node, then open the leaf. -/
def devfs_open (files : List DevfsFile) (path : String) (oflags : Nat) (now : Nat) :
    Except Int OpenOk :=
  let parent := dirname path
  if parent = "." ∨ parent = "/" then devfs_open_leaf files path oflags now
  else
    match devfs_find_entry_path files parent with
    | none => .error ENOENT
    | some pf =>
      if bitmask_check pf.flags DT_DIR then devfs_open_leaf files path oflags now
      else .error ENOTDIR

/-- Embedding of `devfs_unlink` (devfs.c), faithfully including its broken
lookup branch: `.` and `..` are rejected with `-EPERM`; a path whose node
EXISTS returns `-EEXIST` (the C code tests `devfs_file != NULL` where the
intent per the spec is `== NULL`); a path with no node falls through to
`devfs_file->flags` on a null pointer — `none` models that undefined
dereference.  The type, open-handle and destroy steps below the broken
branch are dead code for every input. -/
def devfs_unlink (files : List DevfsFile) (path : String) :
    Option (Int × List DevfsFile) :=
  if path = "." ∨ path = ".." then some (-EPERM, files)
  else
    match devfs_find_entry_path files path with
    | some _ => some (-EEXIST, files)
    | none => none

/-- Outcome of a dispatcher: delegation to the driver's handler, or a
direct integer return. -/
inductive DevfsRet where
  | deleg
  | ret (v : Int)
deriving DecidableEq

/-- Embedding of `devfs_read` (devfs.c): delegate when the node and its
file-ops table with a read handler exist; fall through to `-ENOSYS`
otherwise.  The handle is its inode (`file->ino`), `none` for a null
file pointer. -/
def devfs_read (files : List DevfsFile) (file : Option Nat) : DevfsRet :=
  match file with
  | some ino =>
    match devfs_find_entry_inode files ino with
    | some f =>
      match f.fs_operations with
      | some ops => if ops.read_f then .deleg else .ret (-ENOSYS)
      | none => .ret (-ENOSYS)
    | none => .ret (-ENOSYS)
  | none => .ret (-ENOSYS)

/-- Embedding of `devfs_write` (devfs.c): same shape as `devfs_read`. -/
def devfs_write (files : List DevfsFile) (file : Option Nat) : DevfsRet :=
  match file with
  | some ino =>
    match devfs_find_entry_inode files ino with
    | some f =>
      match f.fs_operations with
      | some ops => if ops.write_f then .deleg else .ret (-ENOSYS)
      | none => .ret (-ENOSYS)
    | none => .ret (-ENOSYS)
  | none => .ret (-ENOSYS)

/-- Embedding of `devfs_lseek` (devfs.c): `-ENOSYS` for a null file or an
unresolved inode, delegation when the driver supplies `lseek_f`, and
`-EINVAL` — not `-ENOSYS` — when the table or the member is absent. -/
def devfs_lseek (files : List DevfsFile) (file : Option Nat) : DevfsRet :=
  match file with
  | some ino =>
    match devfs_find_entry_inode files ino with
    | some f =>
      match f.fs_operations with
      | some ops => if ops.lseek_f then .deleg else .ret (-EINVAL)
      | none => .ret (-EINVAL)
    | none => .ret (-ENOSYS)
  | none => .ret (-ENOSYS)

/-- Embedding of `devfs_ioctl` (devfs.c): delegate when the driver
supplies `ioctl_f`; every other path falls through to `return -1`. -/
def devfs_ioctl (files : List DevfsFile) (file : Option Nat) : DevfsRet :=
  match file with
  | some ino =>
    match devfs_find_entry_inode files ino with
    | some f =>
      match f.fs_operations with
      | some ops => if ops.ioctl_f then .deleg else .ret (-1)
      | none => .ret (-1)
    | none => .ret (-1)
  | none => .ret (-1)

/-- Return value of `__devfs_stat` (devfs.c) on a non-null node and stat
buffer: 0 for a directory, regular file or symlink, `-ENOENT` for a node
with none of the type bits.  The stat-buffer contents are beyond the
claims. -/
def devfs_stat_value (f : DevfsFile) : Int :=
  if bitmask_check f.flags DT_DIR then 0
  else if bitmask_check f.flags DT_REG then 0
  else if bitmask_check f.flags DT_LNK then 0
  else -ENOENT

/-- Embedding of `devfs_fstat` (devfs.c): delegate when the driver
supplies `stat_f`; otherwise fall back to the generic `__devfs_stat`
(NOT `-ENOSYS`); `-ENOSYS` only when the file, the stat buffer or the
node is missing. -/
def devfs_fstat (files : List DevfsFile) (file : Option Nat) (statGiven : Bool) : DevfsRet :=
  match file with
  | some ino =>
    if statGiven then
      match devfs_find_entry_inode files ino with
      | some f =>
        match f.fs_operations with
        | some ops => if ops.stat_f then .deleg else .ret (devfs_stat_value f)
        | none => .ret (devfs_stat_value f)
      | none => .ret (-ENOSYS)
    else .ret (-ENOSYS)
  | none => .ret (-ENOSYS)

/-- Modelled from the spec: `sizeof(dirent_t)` — devfs writes fixed-size
dirent records (spec section 6); the exact byte count is immaterial to
the claims. -/
def dirent_size : Nat := 268

/-- The enumeration loop of `devfs_getdents` (devfs.c): walk the global
node list, skip invalid nodes, the directory itself and entries whose
parent directory differs, honour the byte offset, and stop once the
written bytes reach `count`. -/
def getdentsLoop (dirName : String) (doff : Int) (count : Nat) :
    List DevfsFile → Int → Nat → Nat
  | [], _, written => written
  | e :: rest, iterated, written =>
    if !devfs_check_file e then getdentsLoop dirName doff count rest iterated written
    else if e.name == dirName then getdentsLoop dirName doff count rest iterated written
    else if dirname e.name != dirName then getdentsLoop dirName doff count rest iterated written
    else
      let iterated' := iterated + (dirent_size : Int)
      if iterated' ≤ doff then getdentsLoop dirName doff count rest iterated' written
      else
        let written' := written + dirent_size
        if count ≤ written' then written'
        else getdentsLoop dirName doff count rest iterated' written'

/-- Embedding of `devfs_getdents` (devfs.c): -1 for a null file or buffer
or a buffer smaller than one record; 0 as soon as the global list is
empty — before the inode is resolved and before the directory check —
then `-ENOENT` / `-ENOTDIR`, then the enumeration loop. -/
def devfs_getdents (files : List DevfsFile) (file : Option Nat) (dirpGiven : Bool)
    (doff : Int) (count : Nat) : Int :=
  match file with
  | none => -1
  | some ino =>
    if !dirpGiven then -1
    else if count < dirent_size then -1
    else if files.isEmpty then 0
    else
      match devfs_find_entry_inode files ino with
      | none => -ENOENT
      | some d =>
        if !bitmask_check d.flags DT_DIR then -ENOTDIR
        else (getdentsLoop d.name doff count files 0 0 : Int)

-- ===========================================================================
-- Claims C3, C7, C8, C10 (devfs.c) and C9 (syscall.c)
-- ===========================================================================

/-- A devfs holding one closed regular node, for exercising `unlink`. -/
def unlinkDemoFs : List DevfsFile :=
  [{ inode := 1, flags := 8, name := "/dev/random" }]

/-- C3: evaluation of `devfs_unlink` at the failing inputs.  Unlinking an
existing, regular, closed node — which the claim says must succeed with 0
after destroying the node — instead returns `-EEXIST` and leaves the list
untouched, because the lookup branch tests `devfs_file != NULL`;
unlinking a missing path — which the claim says must fail with `ENOENT` —
dereferences the null lookup result (modelled as `none`). -/
theorem c3_code_evaluation :
    devfs_unlink unlinkDemoFs "/dev/random" = some (-EEXIST, unlinkDemoFs) ∧
    devfs_unlink unlinkDemoFs "/dev/missing" = none := by
  constructor <;> decide

/-- The layer a successful open adds: fresh `vfs_file` linked onto the
node (its open count grows by one) and `atime` refreshed. -/
def c7Stated (files : List DevfsFile) (path : String) (oflags now : Nat) : Prop :=
  ∀ f, devfs_find_entry_path files path = some f →
    (bitmask_check oflags O_CREAT = true ∧ bitmask_check oflags O_EXCL = true →
      devfs_open files path oflags now = .error EEXIST) ∧
    (bitmask_check oflags O_DIRECTORY = true → bitmask_check f.flags DT_DIR = false →
      devfs_open files path oflags now = .error ENOTDIR) ∧
    ((bitmask_check oflags O_RDWR = true ∨ bitmask_check oflags O_WRONLY = true) →
      bitmask_check f.flags DT_DIR = true →
      devfs_open files path oflags now = .error EISDIR) ∧
    (¬(bitmask_check oflags O_CREAT = true ∧ bitmask_check oflags O_EXCL = true) →
      ¬(bitmask_check oflags O_DIRECTORY = true ∧ bitmask_check f.flags DT_DIR = false) →
      ¬((bitmask_check oflags O_RDWR = true ∨ bitmask_check oflags O_WRONLY = true) ∧
          bitmask_check f.flags DT_DIR = true) →
      devfs_open files path oflags now =
        .ok { files := linkOpenFile files path now, openedIno := f.inode })

/-- The devfs root directory node. -/
def devNode : DevfsFile := { inode := 1, flags := 4, name := "/dev" }

/-- A devfs holding only its root directory. -/
def openDirFs : List DevfsFile := [devNode]

/-- C7 counterexample: opening the directory `/dev` with `O_RDWR` but
without `O_DIRECTORY` succeeds — the `EISDIR` check only runs inside the
`O_DIRECTORY` branch — while the claim requires the open of a directory
with write access to fail with `EISDIR`. -/
theorem c7_counterexample : ¬ c7Stated openDirFs "/dev" O_RDWR 5 := by
  intro h
  have h3 := (h devNode (by decide)).2.2.1 (Or.inl (by decide)) (by decide)
  have hok : devfs_open openDirFs "/dev" O_RDWR 5 =
      .ok { files := [{ inode := 1, flags := 4, name := "/dev"
                        atime := 5, openFiles := 1 }], openedIno := 1 } := by rfl
  rw [hok] at h3
  exact Except.noConfusion h3

/-- The parent gate of `devfs_open` passes: the parent path is `.` or `/`,
or names an existing directory node. -/
def parentOk (files : List DevfsFile) (path : String) : Prop :=
  dirname path = "." ∨ dirname path = "/" ∨
    ∃ pf, devfs_find_entry_path files (dirname path) = some pf ∧
      bitmask_check pf.flags DT_DIR = true

/-- When the parent gate passes, `devfs_open` is the leaf open. -/
theorem devfs_open_parent (files : List DevfsFile) (path : String) (oflags now : Nat)
    (hpar : parentOk files path) :
    devfs_open files path oflags now = devfs_open_leaf files path oflags now := by
  rcases hpar with h | h | ⟨pf, hpf, hdir⟩
  · simp [devfs_open, h]
  · simp [devfs_open, h]
  · by_cases hd : dirname path = "." ∨ dirname path = "/"
    · simp [devfs_open, hd]
    · simp [devfs_open, hd, hpf, hdir]

/-- C7 (amended): for a path whose parent gate passes and that names an
existing node — open with `O_CREAT` or `O_EXCL` set fails with `EEXIST`
(the code tests the union of the two bits); with `O_DIRECTORY` set, a
non-directory node fails with `ENOTDIR` and write access (`O_RDWR` or
`O_WRONLY`) to a directory fails with `EISDIR`; in every remaining case —
including write access to a directory without `O_DIRECTORY` — the open
succeeds, allocating a fresh `vfs_file`, linking it onto the node's open
list, and refreshing the node's `atime`. -/
theorem c7_amended (files : List DevfsFile) (path : String) (oflags now : Nat)
    (f : DevfsFile) (hpar : parentOk files path)
    (hfind : devfs_find_entry_path files path = some f) :
    (bitmask_check oflags (O_CREAT ||| O_EXCL) = true →
      devfs_open files path oflags now = .error EEXIST) ∧
    (bitmask_check oflags (O_CREAT ||| O_EXCL) = false →
      bitmask_check oflags O_DIRECTORY = true →
      (bitmask_check f.flags DT_DIR = false →
        devfs_open files path oflags now = .error ENOTDIR) ∧
      (bitmask_check f.flags DT_DIR = true →
        ((bitmask_check oflags O_RDWR || bitmask_check oflags O_WRONLY) = true →
          devfs_open files path oflags now = .error EISDIR) ∧
        ((bitmask_check oflags O_RDWR || bitmask_check oflags O_WRONLY) = false →
          devfs_open files path oflags now =
            .ok { files := linkOpenFile files path now, openedIno := f.inode }))) ∧
    (bitmask_check oflags (O_CREAT ||| O_EXCL) = false →
      bitmask_check oflags O_DIRECTORY = false →
      devfs_open files path oflags now =
        .ok { files := linkOpenFile files path now, openedIno := f.inode }) := by
  rw [devfs_open_parent files path oflags now hpar]
  refine ⟨fun hce => ?_, fun hce hdir => ⟨fun hnd => ?_, fun hd => ⟨fun hw => ?_, fun hw => ?_⟩⟩,
    fun hce hdir => ?_⟩ <;>
    simp [devfs_open_leaf, hfind, *]

/-- A devfs with the root directory and one regular node under it. -/
def twoNodeFs : List DevfsFile :=
  [devNode, { inode := 2, flags := 8, name := "/dev/null" }]

/-- Witness for C7 (amended): plain `O_RDWR` open of an existing regular
node succeeds, linking one handle and refreshing `atime`. -/
theorem c7_amended_witness :
    devfs_open twoNodeFs "/dev/null" O_RDWR 7 =
      .ok { files := [devNode, { inode := 2, flags := 8, name := "/dev/null"
                                 atime := 7, openFiles := 1 }], openedIno := 2 } := by
  have h := (c7_amended twoNodeFs "/dev/null" O_RDWR 7
    { inode := 2, flags := 8, name := "/dev/null" }
    (Or.inr (Or.inr ⟨devNode, by decide, by decide⟩)) (by decide)).2.2 (by decide) (by decide)
  rw [h]
  rfl

/-- Claim C8 as stated, for a node whose driver table is absent: each of
the six dispatchers answers `-ENOSYS`. -/
def c8Stated (files : List DevfsFile) (ino : Nat) : Prop :=
  ∀ f, devfs_find_entry_inode files ino = some f → f.fs_operations = none →
    devfs_read files (some ino) = .ret (-ENOSYS) ∧
    devfs_write files (some ino) = .ret (-ENOSYS) ∧
    devfs_lseek files (some ino) = .ret (-ENOSYS) ∧
    devfs_ioctl files (some ino) = .ret (-ENOSYS) ∧
    devfs_fstat files (some ino) true = .ret (-ENOSYS) ∧
    ∀ (doff : Int) (count : Nat), devfs_getdents files (some ino) true doff count = -ENOSYS

/-- A devfs with one regular node carrying no driver operations. -/
def noOpsFs : List DevfsFile := [{ inode := 1, flags := 8, name := "/dev/null" }]

/-- C8 counterexample: on a node with no driver table, `devfs_lseek`
returns `-EINVAL`, not `-ENOSYS`, so the claim fails (ioctl, fstat and
getdents deviate as well). -/
theorem c8_counterexample : ¬ c8Stated noOpsFs 1 := by
  intro h
  have h3 := (h { inode := 1, flags := 8, name := "/dev/null" } (by decide) rfl).2.2.1
  have : devfs_lseek noOpsFs (some 1) = .ret (-EINVAL) := by decide
  rw [this] at h3
  exact absurd h3 (by decide)

/-- The enumeration loop never answers a negative number. -/
theorem getdentsLoop_nonneg (dirName : String) (doff : Int) (count : Nat) :
    ∀ (l : List DevfsFile) (iterated : Int) (written : Nat),
      0 ≤ (getdentsLoop dirName doff count l iterated written : Int) := by
  intro l iterated written
  exact Int.natCast_nonneg _

/-- `devfs_getdents` never returns `-ENOSYS`: every error path is -1,
`-ENOENT` or `-ENOTDIR`, and the loop value is non-negative. -/
theorem devfs_getdents_ne_enosys (files : List DevfsFile) (file : Option Nat)
    (dirp : Bool) (doff : Int) (count : Nat) :
    devfs_getdents files file dirp doff count ≠ -ENOSYS := by
  cases file with
  | none => simp [devfs_getdents, ENOSYS]
  | some ino =>
    cases dirp with
    | false => simp [devfs_getdents, ENOSYS]
    | true =>
      by_cases hc : count < dirent_size
      · simp [devfs_getdents, hc, ENOSYS]
      · have hc' : (count < dirent_size) = False := eq_false hc
        by_cases he : files.isEmpty
        · simp [devfs_getdents, hc', he, ENOSYS]
        · have he' : files.isEmpty = false := by simpa using he
          cases hfind : devfs_find_entry_inode files ino with
          | none => simp [devfs_getdents, hc', he', hfind, ENOSYS, ENOENT]
          | some d =>
            by_cases hd : bitmask_check d.flags DT_DIR
            · simp only [devfs_getdents, hc', he', hfind, hd, Bool.not_true,
                Bool.false_eq_true, if_false]
              intro hcontra
              have hpos := getdentsLoop_nonneg d.name doff count files 0 0
              rw [hcontra] at hpos
              simp [ENOSYS] at hpos
            · have hd' : bitmask_check d.flags DT_DIR = false := by simpa using hd
              simp [devfs_getdents, hc', he', hfind, hd', ENOSYS, ENOTDIR]

/-- A node's driver table is absent, or is present but its member picked
by `sel` is null — the two ways devfs.c falls past a delegation guard. -/
def lacksOp (f : DevfsFile) (sel : FsOpsPresent → Bool) : Prop :=
  f.fs_operations = none ∨
    ∃ ops, f.fs_operations = some ops ∧ sel ops = false

/-- C8 (amended): on a node whose driver-supplied file-operations table is
absent or lacks the corresponding member, `read` and `write` return
`-ENOSYS`, but `lseek` returns `-EINVAL`, `ioctl` returns `-1`, and
`fstat` falls back to the generic `__devfs_stat` (0 for any typed node);
`lseek` answers `-ENOSYS` exactly on the null-file and unresolved-inode
paths; and `getdents` — generic, never delegated — never produces
`-ENOSYS` at all. -/
theorem c8_amended (files : List DevfsFile) (ino : Nat) (f : DevfsFile)
    (hfind : devfs_find_entry_inode files ino = some f) :
    (lacksOp f (fun ops => ops.read_f) →
      devfs_read files (some ino) = .ret (-ENOSYS)) ∧
    (lacksOp f (fun ops => ops.write_f) →
      devfs_write files (some ino) = .ret (-ENOSYS)) ∧
    (lacksOp f (fun ops => ops.lseek_f) →
      devfs_lseek files (some ino) = .ret (-EINVAL)) ∧
    (lacksOp f (fun ops => ops.ioctl_f) →
      devfs_ioctl files (some ino) = .ret (-1)) ∧
    (lacksOp f (fun ops => ops.stat_f) →
      devfs_fstat files (some ino) true = .ret (devfs_stat_value f)) ∧
    (∀ (file : Option Nat) (dirp : Bool) (doff : Int) (count : Nat),
      devfs_getdents files file dirp doff count ≠ -ENOSYS) ∧
    (∀ (files' : List DevfsFile) (ino' : Nat),
      devfs_find_entry_inode files' ino' = none →
      devfs_lseek files' (some ino') = .ret (-ENOSYS)) ∧
    (∀ (files' : List DevfsFile), devfs_lseek files' none = .ret (-ENOSYS)) := by
  refine ⟨?_, ?_, ?_, ?_, ?_, ?_, ?_, ?_⟩
  · rintro (hops | ⟨ops, hops, hmem⟩)
    · simp [devfs_read, hfind, hops]
    · simp [devfs_read, hfind, hops, hmem]
  · rintro (hops | ⟨ops, hops, hmem⟩)
    · simp [devfs_write, hfind, hops]
    · simp [devfs_write, hfind, hops, hmem]
  · rintro (hops | ⟨ops, hops, hmem⟩)
    · simp [devfs_lseek, hfind, hops]
    · simp [devfs_lseek, hfind, hops, hmem]
  · rintro (hops | ⟨ops, hops, hmem⟩)
    · simp [devfs_ioctl, hfind, hops]
    · simp [devfs_ioctl, hfind, hops, hmem]
  · rintro (hops | ⟨ops, hops, hmem⟩)
    · simp [devfs_fstat, hfind, hops]
    · simp [devfs_fstat, hfind, hops, hmem]
  · intro file dirp doff count
    exact devfs_getdents_ne_enosys files file dirp doff count
  · intro files' ino' hnone
    simp [devfs_lseek, hnone]
  · intro files'
    simp [devfs_lseek]

/-- A devfs whose single node carries a driver table that implements only
`read`. -/
def sparseOpsFs : List DevfsFile :=
  [{ inode := 1, flags := 8, name := "/dev/ttyS0"
     fs_operations := some { read_f := true } }]

/-- Witness for C8 (amended): a node whose table is present but has a null
`lseek_f` member answers `-EINVAL`. -/
theorem c8_amended_witness :
    devfs_lseek sparseOpsFs (some 1) = .ret (-EINVAL) :=
  (c8_amended sparseOpsFs 1
    { inode := 1, flags := 8, name := "/dev/ttyS0"
      fs_operations := some { read_f := true } }
    (by decide)).2.2.1 (Or.inr ⟨{ read_f := true }, rfl, rfl⟩)

/-- Embedding of the result stored into `f->eax` by `syscall_handler`
(syscall.c): an index at or beyond the table size yields the positive
constant `ENOSYS` (the C code assigns `ret = ENOSYS`, not `-ENOSYS`);
otherwise the table entry runs.  `nSyscalls` stands for `SYSCALL_NUMBER`
(from `syscall_types.h`, not among the sources) and `table` for
`sys_call_table`. -/
def syscall_handler_ret (nSyscalls : Nat) (table : Nat → Int) (eax : Nat) : Int :=
  if nSyscalls ≤ eax then ENOSYS else table eax

/-- C9: at an out-of-range index the dispatcher stores positive `ENOSYS`
(38), not the negative errno `-ENOSYS` the convention (and the in-file
documentation of `sys_ni_syscall`) prescribes. -/
theorem c9_code_evaluation :
    syscall_handler_ret 400 (fun _ => 0) 512 = ENOSYS ∧
    0 < ENOSYS ∧
    syscall_handler_ret 400 (fun _ => 0) 512 ≠ -ENOSYS := by
  refine ⟨rfl, by decide, by decide⟩

/-- C10: with an empty devfs node list, `getdents` returns 0 for every
file handle and any buffer of at least one record, before the handle's
inode is resolved and before the directory check; and `-ENOENT` /
`-ENOTDIR` are only reachable when at least one node exists. -/
theorem c10_getdents :
    (∀ (ino : Nat) (doff : Int) (count : Nat), dirent_size ≤ count →
      devfs_getdents [] (some ino) true doff count = 0) ∧
    (∀ (files : List DevfsFile) (file : Option Nat) (dirp : Bool) (doff : Int)
      (count : Nat), files = [] →
      devfs_getdents files file dirp doff count ≠ -ENOENT ∧
      devfs_getdents files file dirp doff count ≠ -ENOTDIR) := by
  constructor
  · intro ino doff count hcount
    have hc : (count < dirent_size) = False := eq_false (by omega)
    simp [devfs_getdents, hc]
  · intro files file dirp doff count hfiles
    subst hfiles
    cases file with
    | none => constructor <;> simp [devfs_getdents, ENOENT, ENOTDIR]
    | some ino =>
      by_cases hdirp : dirp
      · by_cases hc : count < dirent_size
        · constructor <;> simp [devfs_getdents, hdirp, hc, ENOENT, ENOTDIR]
        · constructor <;> simp [devfs_getdents, hdirp, hc, ENOENT, ENOTDIR]
      · constructor <;> simp [devfs_getdents, hdirp, ENOENT, ENOTDIR]

/-- Witness for C10: concrete empty devfs, one-page buffer. -/
theorem c10_getdents_witness :
    devfs_getdents [] (some 1) true 0 4096 = 0 :=
  c10_getdents.1 1 0 4096 (by norm_num [dirent_size])
